import Mathlib

/- Verification of the email-notifier backend (`backend/main.go`): the
   data model, the dedup-and-persist gate shared by both protocol
   adapters, the adapters' bounded fetch windows and parsing loops, the
   poll scheduler's per-account step, and the WebSocket fan-out hub.
   Machine times are modelled as naturals (wall-clock seconds as
   integers where the source uses `time.Now().Unix()`). -/

/-- Mirror of the Go struct `EmailAccount`.  The gorm-managed
`CreatedAt`/`UpdatedAt` bookkeeping columns are omitted; timestamps are
naturals. -/
structure EmailAccount where
  ID : Nat
  Email : String
  Password : String
  Host : String
  Port : Int
  Protocol : String
  IsActive : Bool
  LastCheck : Nat
deriving DecidableEq

/-- Mirror of the Go struct `EmailNotification`; `MessageID` carries the
declared gorm `uniqueIndex`.  The db-assigned `ID` and `CreatedAt` are
omitted. -/
structure EmailNotification where
  AccountEmail : String
  From : String
  Subject : String
  MessageID : String
  ReceivedAt : Nat
deriving DecidableEq

/-- The pre-check both adapters run:
`db.Where("message_id = ?", mid).First(&existing)` finds a record with
the given message id. -/
def containsId (store : List EmailNotification) (mid : String) : Bool :=
  store.any (fun n => n.MessageID == mid)

/-- Number of records in the store carrying a given message id. -/
def countId (store : List EmailNotification) (mid : String) : Nat :=
  (store.map (fun n => n.MessageID)).count mid

/-- The Event-Store invariant backing `gorm:"uniqueIndex"` on
`MessageID`: no two records share a message id. -/
def uniqueIds (store : List EmailNotification) : Prop :=
  (store.map (fun n => n.MessageID)).Nodup

instance (store : List EmailNotification) : Decidable (uniqueIds store) :=
  List.nodupDecidable _

/-- Outcome of one pass through the dedup-and-persist gate. -/
inductive GateOutcome where
  | inserted
  | duplicate
  | insertFailed
deriving DecidableEq

/-- One message through the gate, exactly as both adapter loops implement
it: look the id up; when absent attempt `db.Create` (which can fail,
modelled by `storeOk`); call `broadcastToClients` exactly when the create
succeeded.  Returns the new store, the events broadcast, and the
outcome. -/
def persistAndBroadcast (storeOk : Bool) (store : List EmailNotification)
    (n : EmailNotification) :
    List EmailNotification × List EmailNotification × GateOutcome :=
  if containsId store n.MessageID then (store, [], GateOutcome.duplicate)
  else if storeOk then (store ++ [n], [n], GateOutcome.inserted)
  else (store, [], GateOutcome.insertFailed)

/-- Repeated admissions through the gate with the store available,
collecting the outcome of each call in order. -/
def admitAll : List EmailNotification → List EmailNotification →
    List EmailNotification × List GateOutcome
  | store, [] => (store, [])
  | store, n :: ns =>
    let r := persistAndBroadcast true store n
    let rest := admitAll r.1 ns
    (rest.1, r.2.2 :: rest.2)

/-- Folding the gate over a list of candidate events, collecting the
broadcasts in order: the shared shape of both adapters' message loops. -/
def runGate (storeOk : Bool) : List EmailNotification → List EmailNotification →
    List EmailNotification × List EmailNotification
  | store, [] => (store, [])
  | store, n :: ns =>
    let r := persistAndBroadcast storeOk store n
    let rest := runGate storeOk r.1 ns
    (rest.1, r.2.1 ++ rest.2)

/-- The fetch window of `checkIMAP`: nothing when the mailbox is empty,
otherwise `from = 1` unless `Messages > 10`, in which case
`from = Messages - 9`; the range `[from, Messages]` is fetched. -/
def imapWindow (messages : Nat) : Option (Nat × Nat) :=
  if messages = 0 then none
  else some (if messages > 10 then messages - 9 else 1, messages)

/-- The scan window of `checkPOP3`: nothing when `STAT` reports zero
messages, otherwise `start = 1` unless `count > 10`, in which case
`start = count - 9`; messages `start ≤ i ≤ count` are retrieved. -/
def pop3Window (count : Nat) : Option (Nat × Nat) :=
  if count = 0 then none
  else some (if count > 10 then count - 9 else 1, count)

/-- Number of message indices a window covers. -/
def windowSize : Option (Nat × Nat) → Nat
  | none => 0
  | some (a, b) => b - a + 1

/-- Whether an index lies inside a window. -/
def inWindow (w : Option (Nat × Nat)) (i : Nat) : Bool :=
  match w with
  | none => false
  | some (a, b) => decide (a ≤ i ∧ i ≤ b)

/-- The two protocol adapters. -/
inductive AdapterKind where
  | imap
  | pop3
deriving DecidableEq

/-- The dispatch in `checkEmail`: a case-sensitive string comparison of
the account's protocol tag against `"IMAP"` and then `"POP3"`; any other
tag selects no adapter. -/
def protocolAdapter (p : String) : Option AdapterKind :=
  if p = "IMAP" then some AdapterKind.imap
  else if p = "POP3" then some AdapterKind.pop3
  else none

/-- The per-account step of the poll scheduler, `checkEmail`: dispatch on
the protocol tag to the matching adapter (whose produced events are
abstracted as functions of the account), then unconditionally set
`LastCheck` to the current time and `db.Save` the account.  Returns the
events produced and the saved account record. -/
def checkEmail (imapRun pop3Run : EmailAccount → List EmailNotification)
    (a : EmailAccount) (now : Nat) :
    List EmailNotification × EmailAccount :=
  match protocolAdapter a.Protocol with
  | some AdapterKind.imap => (imapRun a, { a with LastCheck := now })
  | some AdapterKind.pop3 => (pop3Run a, { a with LastCheck := now })
  | none => ([], { a with LastCheck := now })

theorem containsId_append (store l : List EmailNotification) (mid : String) :
    containsId (store ++ l) mid = (containsId store mid || containsId l mid) := by
  simp [containsId, List.any_append]

theorem containsId_eq_false_iff (store : List EmailNotification) (mid : String) :
    containsId store mid = false ↔ mid ∉ store.map (fun n => n.MessageID) := by
  simp [containsId, List.any_eq_true, List.mem_map]

theorem persistAndBroadcast_of_dup (storeOk : Bool) (store : List EmailNotification)
    (n : EmailNotification) (h : containsId store n.MessageID = true) :
    persistAndBroadcast storeOk store n = (store, [], GateOutcome.duplicate) := by
  simp [persistAndBroadcast, h]

theorem persistAndBroadcast_of_new (store : List EmailNotification)
    (n : EmailNotification) (h : containsId store n.MessageID = false) :
    persistAndBroadcast true store n = (store ++ [n], [n], GateOutcome.inserted) := by
  simp [persistAndBroadcast, h]

theorem admitAll_of_contains (mid : String) :
    ∀ (msgs : List EmailNotification) (store : List EmailNotification),
      containsId store mid = true → (∀ n ∈ msgs, n.MessageID = mid) →
      admitAll store msgs = (store, List.replicate msgs.length GateOutcome.duplicate)
  | [], store, _, _ => rfl
  | n :: ns, store, hc, hall => by
    have hn : n.MessageID = mid := hall n (List.mem_cons_self _ _)
    have hd := persistAndBroadcast_of_dup true store n (by rw [hn]; exact hc)
    have ih := admitAll_of_contains mid ns store hc
      (fun m hm => hall m (List.mem_cons_of_mem _ hm))
    simp [admitAll, hd, ih, List.replicate_succ]

theorem uniqueIds_append_of_not_contains (store : List EmailNotification)
    (n : EmailNotification) (hu : uniqueIds store)
    (h : containsId store n.MessageID = false) :
    uniqueIds (store ++ [n]) := by
  have hnm := (containsId_eq_false_iff store n.MessageID).1 h
  unfold uniqueIds at hu ⊢
  rw [List.map_append]
  simp [List.nodup_append, hu]
  intro m hm he
  exact hnm (by rw [← he]; exact List.mem_map_of_mem _ hm)

theorem countId_append (store l : List EmailNotification) (mid : String) :
    countId (store ++ l) mid = countId store mid + countId l mid := by
  simp [countId, List.count_append]

theorem countId_eq_zero_of_not_contains (store : List EmailNotification) (mid : String)
    (h : containsId store mid = false) : countId store mid = 0 := by
  have hnm := (containsId_eq_false_iff store mid).1 h
  simp [countId, List.count_eq_zero]
  intro x hx he
  exact hnm (he ▸ List.mem_map_of_mem _ hx)

/-- C1: for any message identifier, admitting a batch of messages all
carrying that identifier into a store that does not yet hold it yields
exactly one `Inserted` outcome and `Duplicate` for all the rest, the
store keeps its id-uniqueness invariant, and exactly one record with the
identifier exists afterwards — repeated admits persist nothing new. -/
theorem dedup_idempotence (store msgs : List EmailNotification) (mid : String)
    (hu : uniqueIds store) (hnot : containsId store mid = false)
    (hall : ∀ n ∈ msgs, n.MessageID = mid) (hne : msgs ≠ []) :
    (admitAll store msgs).2.count GateOutcome.inserted = 1 ∧
    (admitAll store msgs).2.count GateOutcome.duplicate = msgs.length - 1 ∧
    uniqueIds (admitAll store msgs).1 ∧
    countId (admitAll store msgs).1 mid = 1 := by
  match msgs, hne with
  | n :: ns, _ =>
    have hn : n.MessageID = mid := hall n (List.mem_cons_self _ _)
    have hnew := persistAndBroadcast_of_new store n (by rw [hn]; exact hnot)
    have hc : containsId (store ++ [n]) mid = true := by
      rw [containsId_append]
      simp [containsId, hn]
    have hrest := admitAll_of_contains mid ns (store ++ [n]) hc
      (fun m hm => hall m (List.mem_cons_of_mem _ hm))
    have hLoop : admitAll store (n :: ns) =
        (store ++ [n], GateOutcome.inserted :: List.replicate ns.length GateOutcome.duplicate) := by
      simp [admitAll, hnew, hrest]
    rw [hLoop]
    refine ⟨?_, ?_, ?_, ?_⟩
    · simp [List.count_cons, List.count_replicate]
    · simp [List.count_cons, List.count_replicate]
    · exact uniqueIds_append_of_not_contains store n hu (by rw [hn]; exact hnot)
    · rw [countId_append, countId_eq_zero_of_not_contains store mid hnot]
      simp [countId, hn]

/-- Witness for C1 at a concrete store and two admits of one id. -/
theorem dedup_idempotence_witness :
    (admitAll [] [⟨"a@x.com", "f", "s", "m1", 0⟩, ⟨"a@x.com", "f", "s", "m1", 0⟩]).2.count
        GateOutcome.inserted = 1 ∧
    (admitAll [] [⟨"a@x.com", "f", "s", "m1", 0⟩, ⟨"a@x.com", "f", "s", "m1", 0⟩]).2.count
        GateOutcome.duplicate = 1 ∧
    uniqueIds (admitAll [] [⟨"a@x.com", "f", "s", "m1", 0⟩, ⟨"a@x.com", "f", "s", "m1", 0⟩]).1 ∧
    countId (admitAll [] [⟨"a@x.com", "f", "s", "m1", 0⟩, ⟨"a@x.com", "f", "s", "m1", 0⟩]).1 "m1" = 1 :=
  dedup_idempotence [] [⟨"a@x.com", "f", "s", "m1", 0⟩, ⟨"a@x.com", "f", "s", "m1", 0⟩] "m1"
    (by decide) (by decide) (by decide) (by decide)

/-- C2: both adapters compute the same window; an empty mailbox issues no
request; for `n ≥ 1` the window is exactly `[max(1, n - 9), n]`, it
covers `min n 10` indices, and it always contains the newest message
`n`. -/
theorem window_bound (n : Nat) :
    imapWindow n = pop3Window n ∧
    (n = 0 → imapWindow n = none) ∧
    (1 ≤ n → imapWindow n = some (max 1 (n - 9), n)) ∧
    (1 ≤ n → windowSize (imapWindow n) = min n 10) ∧
    (1 ≤ n → inWindow (imapWindow n) n = true) := by
  refine ⟨rfl, ?_, ?_, ?_, ?_⟩
  · intro h; simp [imapWindow, h]
  · intro h
    have hne : n ≠ 0 := by omega
    by_cases h10 : n > 10
    · simp [imapWindow, hne, h10]; omega
    · simp [imapWindow, hne, h10]; omega
  · intro h
    have hne : n ≠ 0 := by omega
    by_cases h10 : n > 10
    · simp [imapWindow, hne, h10, windowSize]; omega
    · simp [imapWindow, hne, h10, windowSize]; omega
  · intro h
    have hne : n ≠ 0 := by omega
    by_cases h10 : n > 10
    · simp [imapWindow, hne, h10, inWindow]
    · simp [imapWindow, hne, h10, inWindow]
      omega

/-- Witness for C2 at an empty mailbox and at 15 messages. -/
theorem window_bound_witness :
    imapWindow 0 = none ∧
    imapWindow 15 = some (max 1 (15 - 9), 15) ∧
    windowSize (imapWindow 15) = min 15 10 ∧
    inWindow (imapWindow 15) 15 = true :=
  ⟨(window_bound 0).2.1 rfl, (window_bound 15).2.2.1 (by decide),
   (window_bound 15).2.2.2.1 (by decide), (window_bound 15).2.2.2.2 (by decide)⟩

theorem containsId_false_of_append (store : List EmailNotification)
    (n : EmailNotification) (mid : String)
    (h : containsId (store ++ [n]) mid = false) : containsId store mid = false := by
  rw [containsId_append] at h
  exact (Bool.or_eq_false_iff.mp h).1

theorem containsId_append_self (store : List EmailNotification)
    (n : EmailNotification) : containsId (store ++ [n]) n.MessageID = true := by
  rw [containsId_append]
  simp [containsId]

theorem runGate_fresh (storeOk : Bool) :
    ∀ (ns store : List EmailNotification),
      (∀ b ∈ (runGate storeOk store ns).2, containsId store b.MessageID = false) ∧
      ((runGate storeOk store ns).2.map (fun b => b.MessageID)).Nodup
  | [], store => by simp [runGate]
  | n :: ns, store => by
    by_cases hc : containsId store n.MessageID = true
    · have hd := persistAndBroadcast_of_dup storeOk store n hc
      have ih := runGate_fresh storeOk ns store
      simpa [runGate, hd] using ih
    · have hc' : containsId store n.MessageID = false := by simpa using hc
      cases storeOk with
      | false =>
        have hfail : persistAndBroadcast false store n =
            (store, [], GateOutcome.insertFailed) := by
          simp [persistAndBroadcast, hc']
        have ih := runGate_fresh false ns store
        simpa [runGate, hfail] using ih
      | true =>
        have hnew := persistAndBroadcast_of_new store n hc'
        have ih := runGate_fresh true ns (store ++ [n])
        have hmono : ∀ b ∈ (runGate true (store ++ [n]) ns).2,
            containsId store b.MessageID = false :=
          fun b hb => containsId_false_of_append store n _ (ih.1 b hb)
        have hnotin : n.MessageID ∉
            (runGate true (store ++ [n]) ns).2.map (fun b => b.MessageID) := by
          intro hmem
          rcases List.mem_map.mp hmem with ⟨b, hb, he⟩
          have := ih.1 b hb
          rw [he] at this
          rw [containsId_append_self store n] at this
          exact absurd this (by simp)
        constructor
        · intro b hb
          simp only [runGate, hnew] at hb
          rcases List.mem_cons.mp hb with h | h
          · rw [h]; exact hc'
          · exact hmono b h
        · simp only [runGate, hnew]
          exact List.Nodup.cons hnotin ih.2

/-- C3: an event is broadcast to subscribers exactly when its store
insert succeeded: the gate's broadcast list is `[n]` when the outcome is
`Inserted` and empty on `Duplicate` or a failed insert; over a whole
adapter loop no event already present in the store is ever broadcast,
and no event is broadcast twice. -/
theorem broadcast_iff_inserted :
    (∀ (storeOk : Bool) (store : List EmailNotification) (n : EmailNotification),
      (persistAndBroadcast storeOk store n).2.1 =
        if (persistAndBroadcast storeOk store n).2.2 = GateOutcome.inserted
        then [n] else []) ∧
    (∀ (storeOk : Bool) (store ns : List EmailNotification),
      ((runGate storeOk store ns).2.all
        (fun b => !containsId store b.MessageID)) = true ∧
      ((runGate storeOk store ns).2.map (fun b => b.MessageID)).Nodup) := by
  constructor
  · intro storeOk store n
    by_cases hc : containsId store n.MessageID = true
    · simp [persistAndBroadcast, hc]
    · have hc' : containsId store n.MessageID = false := by simpa using hc
      cases storeOk <;> simp [persistAndBroadcast, hc']
  · intro storeOk store ns
    have h := runGate_fresh storeOk ns store
    refine ⟨?_, h.2⟩
    rw [List.all_eq_true]
    intro b hb
    simp [h.1 b hb]

/-- C8: every poll attempt saves the account with `LastCheck` set to the
poll time and every other field (id, email, password, host, port,
protocol, active flag) untouched, whatever the adapter call produced —
success and failure alike. -/
theorem poll_updates_only_lastCheck
    (imapRun pop3Run : EmailAccount → List EmailNotification)
    (a : EmailAccount) (now : Nat) :
    (checkEmail imapRun pop3Run a now).2.ID = a.ID ∧
    (checkEmail imapRun pop3Run a now).2.Email = a.Email ∧
    (checkEmail imapRun pop3Run a now).2.Password = a.Password ∧
    (checkEmail imapRun pop3Run a now).2.Host = a.Host ∧
    (checkEmail imapRun pop3Run a now).2.Port = a.Port ∧
    (checkEmail imapRun pop3Run a now).2.Protocol = a.Protocol ∧
    (checkEmail imapRun pop3Run a now).2.IsActive = a.IsActive ∧
    (checkEmail imapRun pop3Run a now).2.LastCheck = now := by
  unfold checkEmail
  cases h : protocolAdapter a.Protocol with
  | none => simp
  | some k => cases k <;> simp

/-- C9: a protocol tag that is not exactly `"IMAP"` nor exactly `"POP3"`
selects no adapter: the poll produces no events, yet still saves the
account with an updated `LastCheck` — a silent no-op, not an error. -/
theorem unknown_protocol_noop
    (imapRun pop3Run : EmailAccount → List EmailNotification)
    (a : EmailAccount) (now : Nat)
    (h1 : a.Protocol ≠ "IMAP") (h2 : a.Protocol ≠ "POP3") :
    protocolAdapter a.Protocol = none ∧
    checkEmail imapRun pop3Run a now = ([], { a with LastCheck := now }) := by
  have hp : protocolAdapter a.Protocol = none := by
    simp [protocolAdapter, h1, h2]
  exact ⟨hp, by simp [checkEmail, hp]⟩

/-- Witness for C9: the lowercase tag `"imap"` (the dispatch is
case-sensitive) invokes no adapter even though both adapters stand ready
to produce an event, and `LastCheck` is still updated. -/
theorem unknown_protocol_noop_witness :
    protocolAdapter "imap" = none ∧
    checkEmail (fun _ => [⟨"a@x.com", "f", "s", "m1", 0⟩])
        (fun _ => [⟨"a@x.com", "f", "s", "m1", 0⟩])
        ⟨1, "a@x.com", "pw", "h", 993, "imap", true, 0⟩ 5 =
      ([], { (⟨1, "a@x.com", "pw", "h", 993, "imap", true, 0⟩ : EmailAccount) with
              LastCheck := 5 }) :=
  unknown_protocol_noop _ _ ⟨1, "a@x.com", "pw", "h", 993, "imap", true, 0⟩ 5
    (by decide) (by decide)

/-- Mirror of `imap.Address` (go-imap): the fields `checkIMAP` reads. -/
structure Address where
  PersonalName : String
  MailboxName : String
  HostName : String
deriving DecidableEq

/-- Mirror of `imap.Envelope`: the envelope fields `checkIMAP` reads. -/
structure Envelope where
  From : List Address
  Subject : String
  MessageId : String
  Date : Nat
deriving DecidableEq

/-- A fetched IMAP message; `msg.Envelope` may be nil. -/
structure ImapMessage where
  Envelope : Option Envelope
deriving DecidableEq

/-- The display-sender derivation in `checkIMAP`: `"mailbox@host"`,
wrapped as `"personal <mailbox@host>"` when a personal name is present;
empty when the envelope lists no From address. -/
def imapFromAddr (env : Envelope) : String :=
  match env.From with
  | [] => ""
  | addr :: _ =>
    let f := addr.MailboxName ++ "@" ++ addr.HostName
    if addr.PersonalName ≠ "" then addr.PersonalName ++ " <" ++ f ++ ">" else f

/-- The notification `checkIMAP` builds from an envelope: the stored
message id is `msg.Envelope.MessageId` verbatim — never synthesized. -/
def imapNotification (account : EmailAccount) (env : Envelope) : EmailNotification :=
  { AccountEmail := account.Email
    From := imapFromAddr env
    Subject := env.Subject
    MessageID := env.MessageId
    ReceivedAt := env.Date }

/-- The message loop of `checkIMAP`: a message with a nil envelope is
skipped (`continue`); every other message goes through the dedup gate
and is broadcast exactly on a successful insert. -/
def checkIMAPLoop (account : EmailAccount) (storeOk : Bool) :
    List EmailNotification → List ImapMessage →
    List EmailNotification × List EmailNotification
  | store, [] => (store, [])
  | store, msg :: rest =>
    match msg.Envelope with
    | none => checkIMAPLoop account storeOk store rest
    | some env =>
      let r := persistAndBroadcast storeOk store (imapNotification account env)
      let next := checkIMAPLoop account storeOk r.1 rest
      (next.1, r.2.1 ++ next.2)

theorem checkIMAPLoop_eq_runGate (account : EmailAccount) (storeOk : Bool) :
    ∀ (msgs : List ImapMessage) (store : List EmailNotification),
      checkIMAPLoop account storeOk store msgs =
        runGate storeOk store
          ((msgs.filterMap (fun m => m.Envelope)).map (imapNotification account))
  | [], store => rfl
  | msg :: rest, store => by
    have ih := checkIMAPLoop_eq_runGate account storeOk rest
    cases h : msg.Envelope with
    | none => simp [checkIMAPLoop, h, List.filterMap_cons, ih]
    | some env => simp [checkIMAPLoop, h, List.filterMap_cons, runGate, ih]

/-- C10: `checkIMAP` never synthesizes an identifier — the admitted id is
always the envelope's `MessageId` verbatim, the empty string included.
Under the store's uniqueness invariant at most one record with the empty
identifier exists, and once one does, any further id-less IMAP message is
a `Duplicate`: the store is unchanged and nothing is broadcast. -/
theorem imap_empty_id (account : EmailAccount) (env : Envelope)
    (store : List EmailNotification) (storeOk : Bool)
    (hu : uniqueIds store) (hid : env.MessageId = "")
    (hin : containsId store "" = true) :
    (∀ e : Envelope, (imapNotification account e).MessageID = e.MessageId) ∧
    countId store "" ≤ 1 ∧
    persistAndBroadcast storeOk store (imapNotification account env) =
      (store, [], GateOutcome.duplicate) := by
  refine ⟨fun e => rfl, ?_, ?_⟩
  · exact List.nodup_iff_count_le_one.mp hu ""
  · exact persistAndBroadcast_of_dup storeOk store _
      (by simp only [imapNotification]; rw [hid]; exact hin)

/-- Witness for C10: a store already holding one record with the empty
identifier; an id-less envelope is admitted as a duplicate, unchanged
store, no broadcast. -/
theorem imap_empty_id_witness :
    (∀ e : Envelope,
      (imapNotification ⟨1, "a@x.com", "pw", "h", 993, "IMAP", true, 0⟩ e).MessageID =
        e.MessageId) ∧
    countId [⟨"b@y.com", "f", "s", "", 1⟩] "" ≤ 1 ∧
    persistAndBroadcast true [⟨"b@y.com", "f", "s", "", 1⟩]
        (imapNotification ⟨1, "a@x.com", "pw", "h", 993, "IMAP", true, 0⟩
          ⟨[], "subj", "", 3⟩) =
      ([⟨"b@y.com", "f", "s", "", 1⟩], [], GateOutcome.duplicate) :=
  imap_empty_id ⟨1, "a@x.com", "pw", "h", 993, "IMAP", true, 0⟩ ⟨[], "subj", "", 3⟩
    [⟨"b@y.com", "f", "s", "", 1⟩] true (by decide) rfl (by decide)

/-- `strings.HasPrefix` on character lists. -/
def leadsWith : List Char → List Char → Bool
  | [], _ => true
  | _ :: _, [] => false
  | p :: ps, c :: cs => p == c && leadsWith ps cs

/-- `strings.HasPrefix(s, pat)` as `checkPOP3` uses it on reply lines. -/
def strLeadsWith (s pat : String) : Bool := leadsWith pat.data s.data

/-- Splitting a header line at its first colon, as net/textproto does;
`none` when the line has no colon (the malformed-header error case). -/
def splitAtColon : List Char → Option (List Char × List Char)
  | [] => none
  | c :: rest =>
    if c = ':' then some ([], rest)
    else (splitAtColon rest).map (fun r => (c :: r.1, r.2))

/-- ASCII lower-casing of a header key character (MIME canonicalization
modulo capitalisation of the first letters, which `Get` undoes anyway:
lookups compare case-insensitively). -/
def lowerChar (c : Char) : Char :=
  if 'A' ≤ c ∧ c ≤ 'Z' then Char.ofNat (c.toNat + 32) else c

/-- Dropping the leading whitespace of a header value, as textproto
does. -/
def dropHSpace : List Char → List Char
  | [] => []
  | c :: rest => if c = ' ' ∨ c = '\t' then dropHSpace rest else c :: rest

/-- Stripping the line terminator of one read line. -/
def stripLineEnd (cs : List Char) : List Char :=
  match cs.reverse with
  | '\n' :: '\r' :: rest => rest.reverse
  | '\n' :: rest => rest.reverse
  | _ => cs

/-- The four header fields `checkPOP3` reads (`Header.Get` yields the
empty string for an absent field). -/
structure ParsedHeader where
  Subject : String
  From : String
  MessageID : String
  Date : String
deriving DecidableEq

/-- Modelled from net/mail `ReadMessage` reading a header-only block:
every line up to a blank line must be a `Key: value` pair; a line
without a colon makes the whole block unparsable. -/
def parseHeaderFields : List String → Option (List (String × String))
  | [] => some []
  | line :: rest =>
    let l := stripLineEnd line.data
    if l = [] then some []
    else
      match splitAtColon l with
      | none => none
      | some kv =>
        (parseHeaderFields rest).map
          (fun hs => (String.mk (kv.1.map lowerChar), String.mk (dropHSpace kv.2)) :: hs)

/-- `Header.Get`: the first value stored under the (case-normalised)
key, the empty string when absent. -/
def headerGet (hs : List (String × String)) (key : String) : String :=
  match hs.find? (fun kv => kv.1 == String.mk (key.data.map lowerChar)) with
  | some kv => kv.2
  | none => ""

/-- The header-block parse in `checkPOP3`: `mail.ReadMessage` on the
accumulated lines followed by the four `Header.Get` reads. -/
def parseHeaderBlock (lines : List String) : Option ParsedHeader :=
  (parseHeaderFields lines).map
    (fun hs => ⟨headerGet hs "Subject", headerGet hs "From",
                headerGet hs "Message-ID", headerGet hs "Date"⟩)

/-- The header-accumulation loop of `checkPOP3`: read lines until the
`.` terminator or until the connection yields no more data, collecting
the lines read; returns them and the rest of the stream.  The connection
is modelled as the list of complete lines it will still deliver. -/
def readHeaderBlock : List String → List String × List String
  | [] => ([], [])
  | line :: rest =>
    if line = ".\r\n" ∨ line = ".\n" then ([], rest)
    else
      let r := readHeaderBlock rest
      (line :: r.1, r.2)

/-- Fetch side of the `checkPOP3` per-index loop: for each index read
the `TOP` reply line (a missing or non-`+OK` reply skips the index),
accumulate the header block and parse it; an unparsable block is skipped
(`continue`).  `fuel` is the number of indices left to scan. -/
def pop3FetchFrom : Nat → Nat → List String → List (Nat × ParsedHeader)
  | 0, _, _ => []
  | fuel + 1, i, lines =>
    match lines with
    | [] => pop3FetchFrom fuel (i + 1) []
    | status :: rest =>
      if strLeadsWith status "+OK" then
        let hb := readHeaderBlock rest
        match parseHeaderBlock hb.1 with
        | none => pop3FetchFrom fuel (i + 1) hb.2
        | some p => (i, p) :: pop3FetchFrom fuel (i + 1) hb.2
      else pop3FetchFrom fuel (i + 1) rest

/-- Decimal rendering of a natural (`fmt`'s `%d`). -/
def digitChar (d : Nat) : Char := Char.ofNat (48 + d)

/-- Decimal rendering of a natural number. -/
def natRepr (n : Nat) : String :=
  if n = 0 then "0" else String.mk ((Nat.digits 10 n).reverse.map digitChar)

/-- Decimal rendering of an integer (`fmt`'s `%d` on an `int64`). -/
def intRepr (i : Int) : String :=
  if i < 0 then "-" ++ natRepr i.natAbs else natRepr i.natAbs

/-- The identifier `checkPOP3` synthesizes when `Message-ID` is absent:
`fmt.Sprintf("pop3-%s-%d-%d", account.Email, i, time.Now().Unix())`. -/
def synthMessageID (email : String) (i : Nat) (t : Int) : String :=
  "pop3-" ++ email ++ "-" ++ natRepr i ++ "-" ++ intRepr t

/-- The notification `checkPOP3` builds for index `i` from a parsed
header block: the message id is the header's `Message-ID`, or the
synthesized identifier when that is empty; the received time is the
parsed `Date` when present and parsable (`parseDate` models
`mail.ParseDate`), the observation time otherwise. -/
def pop3Notification (account : EmailAccount) (now : Nat) (unixTime : Int)
    (parseDate : String → Option Nat) (i : Nat) (p : ParsedHeader) :
    EmailNotification :=
  { AccountEmail := account.Email
    From := p.From
    Subject := p.Subject
    MessageID :=
      if p.MessageID = "" then synthMessageID account.Email i unixTime
      else p.MessageID
    ReceivedAt :=
      match if p.Date = "" then none else parseDate p.Date with
      | some d => d
      | none => now }

/-- The full `checkPOP3` per-index loop: fetch, parse, then the dedup
gate with a broadcast exactly on successful insert. -/
def checkPOP3From (account : EmailAccount) (now : Nat) (unixTime : Int)
    (parseDate : String → Option Nat) (storeOk : Bool) :
    Nat → Nat → List String → List EmailNotification →
    List EmailNotification × List EmailNotification
  | 0, _, _, store => (store, [])
  | fuel + 1, i, lines, store =>
    match lines with
    | [] => checkPOP3From account now unixTime parseDate storeOk fuel (i + 1) [] store
    | status :: rest =>
      if strLeadsWith status "+OK" then
        let hb := readHeaderBlock rest
        match parseHeaderBlock hb.1 with
        | none => checkPOP3From account now unixTime parseDate storeOk fuel (i + 1) hb.2 store
        | some p =>
          let r := persistAndBroadcast storeOk store
            (pop3Notification account now unixTime parseDate i p)
          let next := checkPOP3From account now unixTime parseDate storeOk fuel (i + 1) hb.2 r.1
          (next.1, r.2.1 ++ next.2)
      else checkPOP3From account now unixTime parseDate storeOk fuel (i + 1) rest store

/-- One well-formed server reply to `TOP i 0`: a `+OK` status line and a
terminated header block. -/
def okResponse (r : String × List String) : Prop :=
  strLeadsWith r.1 "+OK" = true ∧ ∀ l ∈ r.2, l ≠ ".\r\n" ∧ l ≠ ".\n"

instance (r : String × List String) : Decidable (okResponse r) :=
  instDecidableAnd

/-- The line stream a server answering every `TOP` with the given
status-line/header-block replies produces. -/
def joinSegments (resps : List (String × List String)) : List String :=
  (resps.map (fun r => r.1 :: (r.2 ++ [".\r\n"]))).flatten

theorem readHeaderBlock_append (rest : List String) :
    ∀ bl : List String, (∀ l ∈ bl, l ≠ ".\r\n" ∧ l ≠ ".\n") →
      readHeaderBlock (bl ++ ".\r\n" :: rest) = (bl, rest)
  | [], _ => by simp [readHeaderBlock]
  | line :: bl, h => by
    have hl := h line (List.mem_cons_self _ _)
    have ih := readHeaderBlock_append rest bl
      (fun l hm => h l (List.mem_cons_of_mem _ hm))
    simp [readHeaderBlock, hl.1, hl.2, ih]

theorem pop3Fetch_segments :
    ∀ (resps : List (String × List String)) (i : Nat),
      (∀ r ∈ resps, okResponse r) →
      pop3FetchFrom resps.length i (joinSegments resps) =
        (List.enumFrom i resps).filterMap
          (fun x => (parseHeaderBlock x.2.2).map (fun p => (x.1, p)))
  | [], _, _ => rfl
  | r :: resps, i, h => by
    have hr := h r (List.mem_cons_self _ _)
    have ih := pop3Fetch_segments resps (i + 1)
      (fun x hx => h x (List.mem_cons_of_mem _ hx))
    have hb := readHeaderBlock_append (joinSegments resps) r.2 hr.2
    have hjoin : joinSegments (r :: resps) =
        r.1 :: (r.2 ++ ".\r\n" :: joinSegments resps) := by
      simp [joinSegments]
    cases hp : parseHeaderBlock r.2 with
    | none =>
      simp [hjoin, pop3FetchFrom, hr.1, hb, hp, ih,
        List.enumFrom_cons, List.filterMap_cons]
    | some p =>
      simp [hjoin, pop3FetchFrom, hr.1, hb, hp, ih,
        List.enumFrom_cons, List.filterMap_cons]

/-- C7: in both adapters a single unparsable item is skipped without
failing the call while every other message in the window is still
processed: the IMAP loop handles exactly the messages with a non-nil
envelope, and the POP3 retrieval loop, fed a well-formed `+OK` reply per
index, returns exactly the indexed parses of the header blocks that
parse — an index whose block is malformed is skipped, all others are
returned. -/
theorem skip_unparsable :
    (∀ (account : EmailAccount) (storeOk : Bool)
        (store : List EmailNotification) (msgs : List ImapMessage),
      checkIMAPLoop account storeOk store msgs =
        runGate storeOk store
          ((msgs.filterMap (fun m => m.Envelope)).map (imapNotification account))) ∧
    (∀ (resps : List (String × List String)) (i : Nat),
      (∀ r ∈ resps, okResponse r) →
      pop3FetchFrom resps.length i (joinSegments resps) =
        (List.enumFrom i resps).filterMap
          (fun x => (parseHeaderBlock x.2.2).map (fun p => (x.1, p)))) :=
  ⟨fun account storeOk store msgs => checkIMAPLoop_eq_runGate account storeOk msgs store,
   fun resps i h => pop3Fetch_segments resps i h⟩

/-- Ten well-formed `TOP` replies in which the seventh header block is
malformed (a line with no colon). -/
def demoResponses : List (String × List String) :=
  [("+OK\r\n", ["From: a@b.c\r\n", "Subject: m1\r\n"]),
   ("+OK\r\n", ["From: a@b.c\r\n", "Subject: m2\r\n"]),
   ("+OK\r\n", ["From: a@b.c\r\n", "Subject: m3\r\n"]),
   ("+OK\r\n", ["From: a@b.c\r\n", "Subject: m4\r\n"]),
   ("+OK\r\n", ["From: a@b.c\r\n", "Subject: m5\r\n"]),
   ("+OK\r\n", ["From: a@b.c\r\n", "Subject: m6\r\n"]),
   ("+OK\r\n", ["garbage\r\n"]),
   ("+OK\r\n", ["From: a@b.c\r\n", "Subject: m8\r\n"]),
   ("+OK\r\n", ["From: a@b.c\r\n", "Subject: m9\r\n"]),
   ("+OK\r\n", ["From: a@b.c\r\n", "Subject: m10\r\n"])]

/-- Witness for C7: scanning messages 1–10 with a malformed block for
message 7 skips exactly message 7 and still returns parsed results for
messages 1–6 and 8–10. -/
theorem skip_unparsable_witness :
    pop3FetchFrom demoResponses.length 1 (joinSegments demoResponses) =
      (List.enumFrom 1 demoResponses).filterMap
        (fun x => (parseHeaderBlock x.2.2).map (fun p => (x.1, p))) ∧
    (pop3FetchFrom demoResponses.length 1 (joinSegments demoResponses)).map Prod.fst =
      [1, 2, 3, 4, 5, 6, 8, 9, 10] :=
  ⟨skip_unparsable.2 demoResponses 1 (by decide), by decide⟩

theorem digitChar_inj : ∀ d1, d1 < 10 → ∀ d2, d2 < 10 →
    digitChar d1 = digitChar d2 → d1 = d2 := by decide

theorem digitChar_ne_dash : ∀ d, d < 10 → digitChar d ≠ '-' := by decide

theorem digits_bound (n : Nat) : ∀ d ∈ (Nat.digits 10 n).reverse, d < 10 :=
  fun _ hd => Nat.digits_lt_base (by norm_num) (List.mem_reverse.mp hd)

theorem map_digitChar_inj : ∀ (l1 l2 : List Nat), (∀ d ∈ l1, d < 10) →
    (∀ d ∈ l2, d < 10) → l1.map digitChar = l2.map digitChar → l1 = l2
  | [], [], _, _, _ => rfl
  | [], _ :: _, _, _, h => by simp at h
  | _ :: _, [], _, _, h => by simp at h
  | d1 :: l1, d2 :: l2, h1, h2, h => by
    simp only [List.map_cons, List.cons.injEq] at h
    have hd := digitChar_inj d1 (h1 d1 (List.mem_cons_self _ _))
      d2 (h2 d2 (List.mem_cons_self _ _)) h.1
    have ht := map_digitChar_inj l1 l2
      (fun d hd => h1 d (List.mem_cons_of_mem _ hd))
      (fun d hd => h2 d (List.mem_cons_of_mem _ hd)) h.2
    rw [hd, ht]

theorem natRepr_data (n : Nat) : (natRepr n).data =
    if n = 0 then ['0'] else (Nat.digits 10 n).reverse.map digitChar := by
  unfold natRepr
  split <;> rfl

theorem natRepr_inj (a b : Nat) (h : (natRepr a).data = (natRepr b).data) :
    a = b := by
  rw [natRepr_data, natRepr_data] at h
  by_cases ha : a = 0 <;> by_cases hb : b = 0
  · rw [ha, hb]
  · exfalso
    simp only [ha, if_pos, hb, if_neg, not_false_iff] at h
    cases hl : (Nat.digits 10 b).reverse with
    | nil => rw [hl] at h; simp at h
    | cons d rest =>
      rw [hl] at h
      cases rest with
      | nil =>
        simp only [List.map_cons, List.map_nil, List.cons.injEq] at h
        have hd10 : d < 10 := digits_bound b d (by rw [hl]; exact List.mem_cons_self _ _)
        have hd0 : d = 0 := digitChar_inj d hd10 0 (by norm_num) h.1.symm
        have hdig : Nat.digits 10 b = [0] := by
          have hrev := congrArg List.reverse hl
          rw [List.reverse_reverse] at hrev
          rw [hrev, hd0]
          rfl
        have hb0 : b = 0 := by
          have h2 := Nat.ofDigits_digits 10 b
          rw [hdig] at h2
          simpa using h2.symm
        exact hb hb0
      | cons d2 rest2 => simp at h
  · exfalso
    simp only [ha, if_neg, not_false_iff, hb, if_pos] at h
    cases hl : (Nat.digits 10 a).reverse with
    | nil => rw [hl] at h; simp at h
    | cons d rest =>
      rw [hl] at h
      cases rest with
      | nil =>
        simp only [List.map_cons, List.map_nil, List.cons.injEq] at h
        have hd10 : d < 10 := digits_bound a d (by rw [hl]; exact List.mem_cons_self _ _)
        have hd0 : d = 0 := digitChar_inj d hd10 0 (by norm_num) h.1
        have hdig : Nat.digits 10 a = [0] := by
          have hrev := congrArg List.reverse hl
          rw [List.reverse_reverse] at hrev
          rw [hrev, hd0]
          rfl
        have ha0 : a = 0 := by
          have h2 := Nat.ofDigits_digits 10 a
          rw [hdig] at h2
          simpa using h2.symm
        exact ha ha0
      | cons d2 rest2 => simp at h
  · simp only [ha, hb, if_neg, not_false_iff] at h
    have hmap := map_digitChar_inj _ _ (digits_bound a) (digits_bound b) h
    have hdig : Nat.digits 10 a = Nat.digits 10 b :=
      List.reverse_injective hmap
    exact Nat.digits_inj_iff.mp hdig

theorem natRepr_no_dash (n : Nat) : ∀ c ∈ (natRepr n).data, c ≠ '-' := by
  rw [natRepr_data]
  split
  · intro c hc
    simp at hc
    rw [hc]
    decide
  · intro c hc
    rcases List.mem_map.mp hc with ⟨d, hd, he⟩
    rw [← he]
    exact digitChar_ne_dash d (digits_bound n d hd)

theorem dashSplit : ∀ (a b x y : List Char), (∀ c ∈ a, c ≠ '-') →
    (∀ c ∈ b, c ≠ '-') → a ++ '-' :: x = b ++ '-' :: y → a = b ∧ x = y
  | [], [], x, y, _, _, h => by
    simp only [List.nil_append, List.cons.injEq] at h
    exact ⟨rfl, h.2⟩
  | [], c :: b, x, y, _, hb, h => by
    simp only [List.nil_append, List.cons_append, List.cons.injEq] at h
    exact absurd h.1.symm (hb c (List.mem_cons_self _ _))
  | c :: a, [], x, y, ha, _, h => by
    simp only [List.nil_append, List.cons_append, List.cons.injEq] at h
    exact absurd h.1 (ha c (List.mem_cons_self _ _))
  | c1 :: a, c2 :: b, x, y, ha, hb, h => by
    simp only [List.cons_append, List.cons.injEq] at h
    have ih := dashSplit a b x y (fun c hc => ha c (List.mem_cons_of_mem _ hc))
      (fun c hc => hb c (List.mem_cons_of_mem _ hc)) h.2
    exact ⟨by rw [h.1, ih.1], ih.2⟩

/-- C6: when a header lacks a `Message-ID`, `checkPOP3` stores the
deterministic synthesized identifier built from the account email, the
message index and the wall-clock seconds; two synthesized identifiers
for the same account with distinct message indices never collide, even
across distinct clock readings — so within one poll cycle no two id-less
messages share an identifier. -/
theorem synth_id_no_collision (email : String) (i1 i2 : Nat) (t1 t2 : Int)
    (hne : i1 ≠ i2) :
    (∀ (account : EmailAccount) (now : Nat) (unixTime : Int)
        (parseDate : String → Option Nat) (i : Nat) (p : ParsedHeader),
      p.MessageID = "" →
      (pop3Notification account now unixTime parseDate i p).MessageID =
        synthMessageID account.Email i unixTime) ∧
    synthMessageID email i1 t1 ≠ synthMessageID email i2 t2 := by
  constructor
  · intro account now unixTime parseDate i p hp
    simp [pop3Notification, hp]
  · intro h
    have hd : "pop3-".data ++ (email.data ++ ("-".data ++ ((natRepr i1).data ++
        ("-".data ++ (intRepr t1).data)))) =
        "pop3-".data ++ (email.data ++ ("-".data ++ ((natRepr i2).data ++
        ("-".data ++ (intRepr t2).data)))) := by
      have hdd := congrArg String.data h
      simpa only [synthMessageID, String.data_append, List.append_assoc] using hdd
    have h1 := List.append_cancel_left hd
    have h2 := List.append_cancel_left h1
    have h3 := List.append_cancel_left h2
    have h4 : (natRepr i1).data ++ '-' :: (intRepr t1).data =
        (natRepr i2).data ++ '-' :: (intRepr t2).data := by simpa using h3
    have hsplit := dashSplit _ _ _ _ (natRepr_no_dash i1) (natRepr_no_dash i2) h4
    exact hne (natRepr_inj i1 i2 hsplit.1)

/-- Witness for C6: indices 7 and 8 of the same poll, even with the
clock advancing between the two header reads, give distinct synthesized
identifiers, and an id-less header is stored under the synthesized
identifier. -/
theorem synth_id_no_collision_witness :
    (pop3Notification ⟨1, "a@x.com", "pw", "h", 995, "POP3", true, 0⟩ 3 100
        (fun _ => none) 7 ⟨"s", "f", "", ""⟩).MessageID =
      synthMessageID "a@x.com" 7 100 ∧
    synthMessageID "a@x.com" 7 100 ≠ synthMessageID "a@x.com" 8 101 :=
  ⟨(synth_id_no_collision "a@x.com" 7 8 100 101 (by decide)).1
      ⟨1, "a@x.com", "pw", "h", 995, "POP3", true, 0⟩ 3 100 (fun _ => none) 7
      ⟨"s", "f", "", ""⟩ rfl,
   (synth_id_no_collision "a@x.com" 7 8 100 101 (by decide)).2⟩

/-- A WebSocket frame the backend sends (`WSMessage` with its three
`type` tags: `accounts`, `notifications`, `new_notification`). -/
inductive WsMsg where
  | accountsSnapshot (accounts : List EmailAccount)
  | eventsSnapshot (events : List EmailNotification)
  | newEvent (n : EmailNotification)
deriving DecidableEq

/-- A registered WebSocket client; `writeOk` models whether `WriteJSON`
on its transport still succeeds. -/
structure WsClient where
  id : Nat
  writeOk : Bool
deriving DecidableEq

/-- The delivery loop of `broadcastToClients`: write the message to each
registered client in turn; a failed write is logged and the loop moves
on to the next client.  Returns the logged failures and the deliveries
made. -/
def broadcastLoop (msg : WsMsg) : List WsClient → List Nat × List (Nat × WsMsg)
  | [] => ([], [])
  | c :: rest =>
    let r := broadcastLoop msg rest
    if c.writeOk then (r.1, (c.id, msg) :: r.2) else (c.id :: r.1, r.2)

/-- `broadcastToClients`: iterate the subscriber set under the read
lock, writing to every client; the set itself is never modified here.
Returns the set afterwards, the logged failures and the deliveries. -/
def broadcastToClients (clients : List WsClient) (msg : WsMsg) :
    List WsClient × List Nat × List (Nat × WsMsg) :=
  (clients, broadcastLoop msg clients)

/-- Ordering by received timestamp, newest first
(`ORDER BY received_at DESC`). -/
def newestFirst (a b : EmailNotification) : Prop :=
  b.ReceivedAt ≤ a.ReceivedAt

instance : DecidableRel newestFirst := fun _ b => Nat.decLe b.ReceivedAt _

instance : IsTotal EmailNotification newestFirst :=
  ⟨fun a b => le_total b.ReceivedAt a.ReceivedAt⟩

instance : IsTrans EmailNotification newestFirst :=
  ⟨fun _ _ _ hab hbc => le_trans hbc hab⟩

/-- `db.Order("received_at DESC").Limit(50).Find(&notifications)`: the
persisted events sorted newest-first, truncated to the most recent
50. -/
def recentNotifications (notifs : List EmailNotification) : List EmailNotification :=
  (List.insertionSort newestFirst notifs).take 50

/-- What one subscriber observes: whether its connection is already in
`wsClients`, and the frames it has received, in order. -/
structure SubState where
  registered : Bool
  received : List WsMsg
deriving DecidableEq

/-- Atomic hub actions as they touch one fixed subscriber: registration
of its connection (under the write lock), the two catch-up writes of
`sendInitialData` (no lock held), and a `broadcastToClients` publish of
a live event (under the read lock, hence schedulable between any two of
the handler's own steps). -/
inductive HubAction where
  | register
  | sendAccounts (accounts : List EmailAccount)
  | sendEvents (events : List EmailNotification)
  | publish (n : EmailNotification)
deriving DecidableEq

/-- Effect of one hub action on the observed subscriber: a publish
reaches it exactly when it is registered. -/
def hubStep (s : SubState) : HubAction → SubState
  | HubAction.register => { s with registered := true }
  | HubAction.sendAccounts accounts =>
      { s with received := s.received ++ [WsMsg.accountsSnapshot accounts] }
  | HubAction.sendEvents events =>
      { s with received := s.received ++ [WsMsg.eventsSnapshot events] }
  | HubAction.publish n =>
      if s.registered then { s with received := s.received ++ [WsMsg.newEvent n] }
      else s

/-- Running a schedule of hub actions. -/
def hubRun (s : SubState) (acts : List HubAction) : SubState :=
  acts.foldl hubStep s

/-- The `/ws` handler's own sequence for a new connection: add the
connection to `wsClients`, then `sendInitialData` — the full account
table followed by the 50 most recent events, newest-first. -/
def subscribeProgram (accounts : List EmailAccount)
    (notifs : List EmailNotification) : List HubAction :=
  [HubAction.register, HubAction.sendAccounts accounts,
   HubAction.sendEvents (recentNotifications notifs)]

/-- Interleavings of two threads' action sequences. -/
inductive Interleaving : List HubAction → List HubAction → List HubAction → Prop
  | nil : Interleaving [] [] []
  | left {x xs ys zs} : Interleaving xs ys zs → Interleaving (x :: xs) ys (x :: zs)
  | right {y xs ys zs} : Interleaving xs ys zs → Interleaving xs (y :: ys) (y :: zs)

/-- Does a live event arrive before the catch-up burst completes, i.e.
before the events snapshot? -/
def liveBeforeBurstEnd : List WsMsg → Bool
  | [] => false
  | WsMsg.newEvent _ :: _ => true
  | WsMsg.eventsSnapshot _ :: _ => false
  | _ :: rest => liveBeforeBurstEnd rest

/-- Counterexample to C4 as stated: the handler adds the connection to
`wsClients` before `sendInitialData` runs and holds no lock during the
burst, so a concurrent `broadcastToClients` scheduled between
registration and the burst delivers a live event to the subscriber
before the burst completes. -/
theorem catchup_live_before_burst :
    Interleaving (subscribeProgram [] [])
      [HubAction.publish ⟨"a@x.com", "f", "s", "m1", 0⟩]
      [HubAction.register, HubAction.publish ⟨"a@x.com", "f", "s", "m1", 0⟩,
       HubAction.sendAccounts [], HubAction.sendEvents (recentNotifications [])] ∧
    liveBeforeBurstEnd (hubRun ⟨false, []⟩
      [HubAction.register, HubAction.publish ⟨"a@x.com", "f", "s", "m1", 0⟩,
       HubAction.sendAccounts [], HubAction.sendEvents (recentNotifications [])]).received
      = true :=
  ⟨Interleaving.left (Interleaving.right (Interleaving.left
      (Interleaving.left Interleaving.nil))),
   by decide⟩

/-- C4 amended: on subscribe the hub registers the connection and then
sends the full current account list followed by the 50 most recent
persisted events newest-first as its one-time burst; a live event
published after the burst is received after it.  Because registration
precedes the burst, a publish interleaved between the two can still
reach the subscriber first. -/
theorem catchup_burst (accounts : List EmailAccount)
    (notifs : List EmailNotification) (e : EmailNotification) :
    (hubRun ⟨false, []⟩ (subscribeProgram accounts notifs)).received =
      [WsMsg.accountsSnapshot accounts,
       WsMsg.eventsSnapshot (recentNotifications notifs)] ∧
    (recentNotifications notifs).length ≤ 50 ∧
    List.Sorted newestFirst (recentNotifications notifs) ∧
    (hubRun ⟨false, []⟩
        (subscribeProgram accounts notifs ++ [HubAction.publish e])).received =
      [WsMsg.accountsSnapshot accounts,
       WsMsg.eventsSnapshot (recentNotifications notifs), WsMsg.newEvent e] := by
  refine ⟨rfl, ?_, ?_, rfl⟩
  · simp [recentNotifications]
  · exact List.Pairwise.sublist (List.take_sublist _ _)
      (List.sorted_insertionSort newestFirst notifs)

theorem broadcastLoop_eq (msg : WsMsg) : ∀ clients : List WsClient,
    broadcastLoop msg clients =
      ((clients.filter (fun c => !c.writeOk)).map (fun c => c.id),
       (clients.filter (fun c => c.writeOk)).map (fun c => (c.id, msg)))
  | [] => rfl
  | c :: rest => by
    have ih := broadcastLoop_eq msg rest
    by_cases hw : c.writeOk = true <;>
      simp [broadcastLoop, List.filter_cons, hw, ih]

/-- Counterexample to C5 as stated: a subscriber whose delivery fails is
logged but remains in the subscriber set after the broadcast —
`broadcastToClients` drops nobody (the other subscriber is still
delivered to). -/
theorem broadcast_failed_not_dropped :
    (broadcastToClients [⟨1, false⟩, ⟨2, true⟩]
        (WsMsg.newEvent ⟨"a@x.com", "f", "s", "m1", 0⟩)).1 =
      [⟨1, false⟩, ⟨2, true⟩] ∧
    (⟨1, false⟩ : WsClient) ∈ (broadcastToClients [⟨1, false⟩, ⟨2, true⟩]
        (WsMsg.newEvent ⟨"a@x.com", "f", "s", "m1", 0⟩)).1 ∧
    (broadcastToClients [⟨1, false⟩, ⟨2, true⟩]
        (WsMsg.newEvent ⟨"a@x.com", "f", "s", "m1", 0⟩)).2.1 = [1] ∧
    (broadcastToClients [⟨1, false⟩, ⟨2, true⟩]
        (WsMsg.newEvent ⟨"a@x.com", "f", "s", "m1", 0⟩)).2.2 =
      [(2, WsMsg.newEvent ⟨"a@x.com", "f", "s", "m1", 0⟩)] := by
  refine ⟨rfl, ?_, rfl, rfl⟩
  decide

/-- C5 amended: when delivery of an event to one registered subscriber
fails, the failure is logged and delivery to every other registered
subscriber still happens, but the broadcast leaves the subscriber set
unchanged — the failing subscriber is not dropped by `broadcastToClients`
(its removal happens only when its own connection handler exits). -/
theorem broadcast_failure_isolated (clients : List WsClient) (msg : WsMsg) :
    (broadcastToClients clients msg).1 = clients ∧
    (broadcastToClients clients msg).2.1 =
      (clients.filter (fun c => !c.writeOk)).map (fun c => c.id) ∧
    (broadcastToClients clients msg).2.2 =
      (clients.filter (fun c => c.writeOk)).map (fun c => (c.id, msg)) := by
  have h := broadcastLoop_eq msg clients
  exact ⟨rfl, by simp [broadcastToClients, h], by simp [broadcastToClients, h]⟩

theorem checkPOP3From_eq_runGate (account : EmailAccount) (now : Nat)
    (unixTime : Int) (parseDate : String → Option Nat) (storeOk : Bool) :
    ∀ (fuel i : Nat) (lines : List String) (store : List EmailNotification),
      checkPOP3From account now unixTime parseDate storeOk fuel i lines store =
        runGate storeOk store
          ((pop3FetchFrom fuel i lines).map
            (fun x => pop3Notification account now unixTime parseDate x.1 x.2))
  | 0, _, _, _ => rfl
  | fuel + 1, i, lines, store => by
    have ih := checkPOP3From_eq_runGate account now unixTime parseDate storeOk fuel
    cases lines with
    | nil => simpa [checkPOP3From, pop3FetchFrom] using ih (i + 1) [] store
    | cons status rest =>
      by_cases hs : strLeadsWith status "+OK" = true
      · cases hp : parseHeaderBlock (readHeaderBlock rest).1 with
        | none =>
          simpa [checkPOP3From, pop3FetchFrom, hs, hp]
            using ih (i + 1) (readHeaderBlock rest).2 store
        | some p =>
          simp [checkPOP3From, pop3FetchFrom, hs, hp, runGate, ih]
      · have hs' : strLeadsWith status "+OK" = false := by simpa using hs
        simpa [checkPOP3From, pop3FetchFrom, hs']
          using ih (i + 1) rest store
